import Mathlib

/-!
Verification of the UnsafeCells library: a bitwise-copy cell (src/cell.rs),
a runtime borrow-checked cell (src/refcell.rs) and a single-threaded
reference-counted pointer (src/rc.rs), shallowly embedded in Lean.

Rust interior mutability is modelled by explicit state passing: each
operation takes the current contents of the structure and returns the
new contents.  The `usize` counters are modelled as `Nat` (the claims are
about ideal counts; machine-integer overflow is out of their scope).
-/

set_option autoImplicit false

namespace UnsafeCells

/-! ## Cell (src/cell.rs)

`Cell<T>` holds one value behind an `UnsafeCell`; `set` replaces it through
a shared reference and `get` returns a bitwise copy.  As state passing:
the cell is its value, `set` returns the cell with the new value, `get`
returns the value. -/

structure Cell (α : Type) where
  val : α

def Cell.new {α : Type} (val : α) : Cell α := ⟨val⟩

def Cell.set {α : Type} (c : Cell α) (val : α) : Cell α := { c with val := val }

def Cell.get {α : Type} (c : Cell α) : α := c.val

/-! ## RefCell (src/refcell.rs)

`RefCell<T>` holds a payload in an `UnsafeCell<T>` and a `Cell<RefState>`.
`borrow`/`borrow_mut` return `Option<Ref>`/`Option<RefMut>` and update the
state through the `Cell`; the `Drop` impls of `Ref` and `RefMut` restore it.

In the embedding an operation maps the cell contents to the new contents.
`borrow`/`borrow_mut` also return a `Bool`: `true` models `Some(handle)`
being issued, `false` models `None` (refusal).  The drop code of a handle
maps the contents to `Option` contents, where `none` models the
`unreachable!()` abort branches of the two `Drop` impls. -/

inductive RefState where
  | none
  | shared (n : Nat)
  | exclusive
deriving DecidableEq

structure RefCell (α : Type) where
  val : α
  state : RefState

/-- RefCell::new: state starts as RefState::None. -/
def RefCell.new {α : Type} (val : α) : RefCell α :=
  { val := val, state := RefState.none }

/-- RefCell::borrow: None ↦ Shared(1), Shared(n) ↦ Shared(n+1), handle issued;
Exclusive ↦ refused, everything unchanged. -/
def RefCell.borrow {α : Type} (c : RefCell α) : Bool × RefCell α :=
  match c.state with
  | RefState.none => (true, { c with state := RefState.shared 1 })
  | RefState.shared n => (true, { c with state := RefState.shared (n + 1) })
  | RefState.exclusive => (false, c)

/-- RefCell::borrow_mut: None ↦ Exclusive, handle issued; Shared(_) and
Exclusive ↦ refused, everything unchanged. -/
def RefCell.borrow_mut {α : Type} (c : RefCell α) : Bool × RefCell α :=
  match c.state with
  | RefState.none => (true, { c with state := RefState.exclusive })
  | RefState.shared _ => (false, c)
  | RefState.exclusive => (false, c)

/-- Drop for Ref: None and Exclusive hit unreachable!() (modelled as
`Option.none`); Shared(1) ↦ None; Shared(n) ↦ Shared(n-1). -/
def RefCell.dropRef {α : Type} (c : RefCell α) : Option (RefCell α) :=
  match c.state with
  | RefState.none => Option.none
  | RefState.exclusive => Option.none
  | RefState.shared 1 => some { c with state := RefState.none }
  | RefState.shared n => some { c with state := RefState.shared (n - 1) }

/-- Drop for RefMut: Shared(_) and None hit unreachable!(); Exclusive ↦ None. -/
def RefCell.dropRefMut {α : Type} (c : RefCell α) : Option (RefCell α) :=
  match c.state with
  | RefState.shared _ => Option.none
  | RefState.none => Option.none
  | RefState.exclusive => some { c with state := RefState.none }

/-- Deref for Ref / RefMut: reads the payload, no state change. -/
def RefCell.derefVal {α : Type} (c : RefCell α) : α := c.val

/-! ### Traces of the public RefCell interface

A configuration pairs the cell contents with the numbers of live `Ref`
and `RefMut` handles.  `Reach v` holds for every configuration that some
finite sequence of borrow(), borrow_mut() calls and handle drops can
produce starting from `RefCell::new(v)`.  A refused borrow leaves the
configuration unchanged, so it needs no constructor.  Dropping a handle
requires one to be live; the drop code itself is `dropRef`/`dropRefMut`
above, and the equation hypothesis records that the `unreachable!()`
branch was not taken (that it never can be is proved below). -/

structure Config (α : Type) where
  cell : RefCell α
  reads : Nat
  writes : Nat

inductive Reach {α : Type} (v : α) : Config α → Prop where
  | init : Reach v ⟨RefCell.new v, 0, 0⟩
  | borrowStep {c : Config α} :
      Reach v c → (RefCell.borrow c.cell).1 = true →
      Reach v ⟨(RefCell.borrow c.cell).2, c.reads + 1, c.writes⟩
  | borrowMutStep {c : Config α} :
      Reach v c → (RefCell.borrow_mut c.cell).1 = true →
      Reach v ⟨(RefCell.borrow_mut c.cell).2, c.reads, c.writes + 1⟩
  | dropReadStep {c : Config α} {cell' : RefCell α} :
      Reach v c → 1 ≤ c.reads → RefCell.dropRef c.cell = some cell' →
      Reach v ⟨cell', c.reads - 1, c.writes⟩
  | dropWriteStep {c : Config α} {cell' : RefCell α} :
      Reach v c → 1 ≤ c.writes → RefCell.dropRefMut c.cell = some cell' →
      Reach v ⟨cell', c.reads, c.writes - 1⟩

/-- The borrow state encodes the exact configuration of live handles. -/
def stateMatches (s : RefState) (reads writes : Nat) : Prop :=
  match s with
  | RefState.none => reads = 0 ∧ writes = 0
  | RefState.shared n => reads = n ∧ 1 ≤ n ∧ writes = 0
  | RefState.exclusive => writes = 1 ∧ reads = 0

lemma reach_stateMatches {α : Type} {v : α} {c : Config α} (h : Reach v c) :
    stateMatches c.cell.state c.reads c.writes := by
  induction h with
  | init => exact ⟨rfl, rfl⟩
  | borrowStep h hb ih =>
      rename_i c
      cases hs : c.cell.state with
      | none =>
          simp only [hs, stateMatches] at ih
          simp [RefCell.borrow, hs, stateMatches, ih.1, ih.2]
      | shared n =>
          simp only [hs, stateMatches] at ih
          simp only [RefCell.borrow, hs, stateMatches]
          omega
      | exclusive =>
          simp [RefCell.borrow, hs] at hb
  | borrowMutStep h hb ih =>
      rename_i c
      cases hs : c.cell.state with
      | none =>
          simp only [hs, stateMatches] at ih
          simp [RefCell.borrow_mut, hs, stateMatches, ih.1, ih.2]
      | shared n => simp [RefCell.borrow_mut, hs] at hb
      | exclusive => simp [RefCell.borrow_mut, hs] at hb
  | dropReadStep h hr hd ih =>
      rename_i c cell'
      cases hs : c.cell.state with
      | none => simp [RefCell.dropRef, hs] at hd
      | shared n =>
          simp only [hs, stateMatches] at ih
          match n, ih with
          | 1, ih =>
              simp only [RefCell.dropRef, hs, Option.some.injEq] at hd
              subst hd
              simp only [stateMatches]
              omega
          | (k + 2), ih =>
              simp only [RefCell.dropRef, hs, Option.some.injEq] at hd
              subst hd
              simp only [stateMatches]
              omega
      | exclusive => simp [RefCell.dropRef, hs] at hd
  | dropWriteStep h hw hd ih =>
      rename_i c cell'
      cases hs : c.cell.state with
      | none => simp [RefCell.dropRefMut, hs] at hd
      | shared n => simp [RefCell.dropRefMut, hs] at hd
      | exclusive =>
          simp only [hs, stateMatches] at ih
          simp only [RefCell.dropRefMut, hs, Option.some.injEq] at hd
          subst hd
          simp only [stateMatches]
          omega

/-! ## Rc (src/rc.rs)

`Rc<T>` is a raw pointer to a heap-allocated `RcInner<T>` holding the
payload and a `Cell<usize>` reference count.  The embedding models the one
heap block an `Rc::new` call creates: `val` and `ref_count` are the block
fields, `allocated` records whether the block has been freed by
`Box::from_raw` in `Drop` (after which the source performs no further
access), and `live` counts the live `Rc` handles pointing at the block.
Every handle is the same raw pointer, so no per-handle data is needed. -/

structure RcSys (α : Type) where
  val : α
  ref_count : Nat
  allocated : Bool
  live : Nat

/-- Rc::new: one fresh block with the payload, ref_count starting at 1,
returning the single handle to it. -/
def Rc.new {α : Type} (val : α) : RcSys α :=
  { val := val, ref_count := 1, allocated := true, live := 1 }

/-- Rc::strong_count: ref_count.get(), read-only. -/
def Rc.strong_count {α : Type} (s : RcSys α) : Nat := s.ref_count

/-- Clone for Rc: ref_count.set(ref_count.get() + 1) and a new handle to the
same block; no allocation happens, so `allocated` and `val` are untouched. -/
def Rc.clone {α : Type} (s : RcSys α) : RcSys α :=
  { s with ref_count := s.ref_count + 1, live := s.live + 1 }

/-- Drop for Rc: if ref_count.get() is 1 the block is freed
(Box::from_raw drops the payload and releases the memory — modelled by
`allocated := false`; the count field ceases to exist with the block);
otherwise ref_count.set(n - 1) and the block survives. -/
def Rc.dropHandle {α : Type} (s : RcSys α) : RcSys α :=
  match s.ref_count with
  | 1 => { s with allocated := false, live := s.live - 1 }
  | _ => { s with ref_count := s.ref_count - 1, live := s.live - 1 }

/-- Deref for Rc: reads the payload out of the block; meaningful only while
the block is allocated (the source relies on that for safety). -/
def Rc.deref {α : Type} (s : RcSys α) : Option α :=
  if s.allocated then some s.val else Option.none

/-- N-fold clone, used to state the strong_count-after-N-clones claims. -/
def Rc.cloneN {α : Type} : Nat → RcSys α → RcSys α
  | 0, s => s
  | n + 1, s => Rc.clone (Rc.cloneN n s)

/-- `RcReach v s`: starting from `Rc::new(v)`, some finite interleaving of
clone() calls and handle drops (each requiring a live handle to act on)
produces block-and-handle state `s`. -/
inductive RcReach {α : Type} (v : α) : RcSys α → Prop where
  | init : RcReach v (Rc.new v)
  | cloneStep {s : RcSys α} : RcReach v s → 1 ≤ s.live → RcReach v (Rc.clone s)
  | dropStep {s : RcSys α} : RcReach v s → 1 ≤ s.live → RcReach v (Rc.dropHandle s)

lemma rcReach_invariant {α : Type} {v : α} {s : RcSys α} (h : RcReach v s) :
    s.val = v
    ∧ (s.allocated = true ↔ 1 ≤ s.live)
    ∧ (s.allocated = true → s.ref_count = s.live) := by
  induction h with
  | init => exact ⟨rfl, by simp [Rc.new], by simp [Rc.new]⟩
  | cloneStep h hl ih =>
      rename_i s
      have ha : s.allocated = true := ih.2.1.mpr hl
      have hc : s.ref_count = s.live := ih.2.2 ha
      refine ⟨ih.1, ?_, ?_⟩
      · simp [Rc.clone, ha]
      · intro _; simp [Rc.clone, hc]
  | dropStep h hl ih =>
      rename_i s
      have ha : s.allocated = true := ih.2.1.mpr hl
      have hc : s.ref_count = s.live := ih.2.2 ha
      match hrc : s.ref_count with
      | 1 =>
          have hlive : s.live = 1 := by omega
          refine ⟨?_, ?_, ?_⟩
          · simp only [Rc.dropHandle, hrc]
            exact ih.1
          · simp only [Rc.dropHandle, hrc]
            simp [hlive]
          · intro hcontra
            simp only [Rc.dropHandle, hrc] at hcontra
            simp at hcontra
      | 0 => omega
      | (k + 2) =>
          have hlive : 1 ≤ s.live - 1 := by omega
          refine ⟨?_, ?_, ?_⟩
          · simp only [Rc.dropHandle, hrc]
            exact ih.1
          · simp only [Rc.dropHandle, hrc]
            simpa [ha] using hlive
          · intro _
            simp only [Rc.dropHandle, hrc]
            omega

end UnsafeCells

namespace UnsafeCells

/-- C6: dropping a ReadHandle turns Shared(1) into None and Shared(n), n > 1,
into Shared(n-1); dropping a WriteHandle turns Exclusive into None; any other
observed state hits the unreachable!() abort branch (modelled as
`Option.none`), so the drop code never returns a value there. -/
theorem drop_transition_table {α : Type} (v : α) (n m : Nat) (h2 : 2 ≤ n) :
    RefCell.dropRef { val := v, state := RefState.shared 1 }
      = some { val := v, state := RefState.none }
    ∧ RefCell.dropRef { val := v, state := RefState.shared n }
      = some { val := v, state := RefState.shared (n - 1) }
    ∧ RefCell.dropRef { val := v, state := RefState.none } = Option.none
    ∧ RefCell.dropRef { val := v, state := RefState.exclusive } = Option.none
    ∧ RefCell.dropRefMut { val := v, state := RefState.exclusive }
      = some { val := v, state := RefState.none }
    ∧ RefCell.dropRefMut { val := v, state := RefState.none } = Option.none
    ∧ RefCell.dropRefMut { val := v, state := RefState.shared m } = Option.none := by
  obtain ⟨k, rfl⟩ : ∃ k, n = k + 2 := ⟨n - 2, by omega⟩
  exact ⟨rfl, rfl, rfl, rfl, rfl, rfl, rfl⟩

/-- Witness for drop_transition_table at v = 7, n = 2, m = 1 (in particular
covering WriteHandle destruction at SharedBy(1)). -/
theorem drop_transition_table_witness :
    RefCell.dropRef { val := (7 : Nat), state := RefState.shared 1 }
      = some { val := 7, state := RefState.none }
    ∧ RefCell.dropRef { val := (7 : Nat), state := RefState.shared 2 }
      = some { val := 7, state := RefState.shared 1 }
    ∧ RefCell.dropRef { val := (7 : Nat), state := RefState.none } = Option.none
    ∧ RefCell.dropRef { val := (7 : Nat), state := RefState.exclusive } = Option.none
    ∧ RefCell.dropRefMut { val := (7 : Nat), state := RefState.exclusive }
      = some { val := 7, state := RefState.none }
    ∧ RefCell.dropRefMut { val := (7 : Nat), state := RefState.none } = Option.none
    ∧ RefCell.dropRefMut { val := (7 : Nat), state := RefState.shared 1 } = Option.none :=
  drop_transition_table 7 2 1 (by decide)

/-- C1: in every configuration reachable through new, borrow, borrow_mut and
handle drops, the BorrowState equals the exact configuration of live handles
(None ↔ no handles; Shared(n) ↔ n ≥ 1 ReadHandles and no WriteHandle;
Exclusive ↔ one WriteHandle and no ReadHandles), and a WriteHandle is never
live simultaneously with a ReadHandle. -/
theorem borrow_state_exact {α : Type} (v : α) (c : Config α) (h : Reach v c) :
    stateMatches c.cell.state c.reads c.writes
    ∧ ¬(1 ≤ c.reads ∧ 1 ≤ c.writes) := by
  have hm := reach_stateMatches h
  refine ⟨hm, ?_⟩
  cases hs : c.cell.state <;> simp only [hs, stateMatches] at hm <;> omega

/-- Witness for borrow_state_exact: the configuration after one successful
borrow() on RefCell::new(5) is reachable and satisfies the invariant. -/
theorem borrow_state_exact_witness :
    stateMatches
      (Config.mk { val := (5 : Nat), state := RefState.shared 1 } 1 0).cell.state
      (Config.mk { val := (5 : Nat), state := RefState.shared 1 } 1 0).reads
      (Config.mk { val := (5 : Nat), state := RefState.shared 1 } 1 0).writes
    ∧ ¬(1 ≤ (Config.mk { val := (5 : Nat), state := RefState.shared 1 } 1 0).reads
        ∧ 1 ≤ (Config.mk { val := (5 : Nat), state := RefState.shared 1 } 1 0).writes) :=
  borrow_state_exact 5 ⟨{ val := 5, state := RefState.shared 1 }, 1, 0⟩
    (Reach.borrowStep Reach.init rfl)

/-- C9: in every reachable configuration the unreachable!() branches of the
two destructors cannot fire: whenever a ReadHandle is live its drop code
returns a new state (the state is Shared), and whenever a WriteHandle is
live its drop code returns a new state (the state is Exclusive). -/
theorem drop_never_aborts {α : Type} (v : α) (c : Config α) (h : Reach v c) :
    (1 ≤ c.reads → (RefCell.dropRef c.cell).isSome = true)
    ∧ (1 ≤ c.writes → (RefCell.dropRefMut c.cell).isSome = true) := by
  have hm := reach_stateMatches h
  constructor
  · intro hr
    cases hs : c.cell.state with
    | none => simp only [hs, stateMatches] at hm; omega
    | shared n =>
        match n with
        | 0 => simp only [hs, stateMatches] at hm; omega
        | 1 => simp [RefCell.dropRef, hs]
        | (k + 2) => simp [RefCell.dropRef, hs]
    | exclusive => simp only [hs, stateMatches] at hm; omega
  · intro hw
    cases hs : c.cell.state with
    | none => simp only [hs, stateMatches] at hm; omega
    | shared n => simp only [hs, stateMatches] at hm; omega
    | exclusive => simp [RefCell.dropRefMut, hs]

/-- Witness for drop_never_aborts at the reachable configuration holding one
ReadHandle of RefCell::new(5). -/
theorem drop_never_aborts_witness :
    (1 ≤ (Config.mk { val := (5 : Nat), state := RefState.shared 1 } 1 0).reads →
      (RefCell.dropRef
        (Config.mk { val := (5 : Nat), state := RefState.shared 1 } 1 0).cell).isSome = true)
    ∧ (1 ≤ (Config.mk { val := (5 : Nat), state := RefState.shared 1 } 1 0).writes →
      (RefCell.dropRefMut
        (Config.mk { val := (5 : Nat), state := RefState.shared 1 } 1 0).cell).isSome = true) :=
  drop_never_aborts 5 ⟨{ val := 5, state := RefState.shared 1 }, 1, 0⟩
    (Reach.borrowStep Reach.init rfl)

/-- C8: for every value v, Cell::new(v).get() == v; set(w) always succeeds
(it is a total function here) and a subsequent get() returns w. -/
theorem cell_new_get_set {α : Type} (v w : α) (c : Cell α) :
    (Cell.new v).get = v ∧ ((Cell.set c w).get = w) :=
  ⟨rfl, rfl⟩

lemma cloneN_strong_count {α : Type} (n : Nat) (s : RcSys α) :
    Rc.strong_count (Rc.cloneN n s) = Rc.strong_count s + n := by
  induction n with
  | zero => rfl
  | succ k ih =>
      simp only [Rc.cloneN, Rc.clone, Rc.strong_count] at *
      omega

lemma dropHandle_eq_of_one {α : Type} (s : RcSys α) (h : s.ref_count = 1) :
    Rc.dropHandle s = { s with allocated := false, live := s.live - 1 } := by
  simp [Rc.dropHandle, h]

lemma dropHandle_eq_of_ge_two {α : Type} (s : RcSys α) (h : 2 ≤ s.ref_count) :
    Rc.dropHandle s = { s with ref_count := s.ref_count - 1, live := s.live - 1 } := by
  match hrc : s.ref_count with
  | 0 => omega
  | 1 => omega
  | (k + 2) => simp [Rc.dropHandle, hrc]

lemma dropHandle_strong_count {α : Type} (s : RcSys α) (h : 2 ≤ s.ref_count) :
    Rc.strong_count (Rc.dropHandle s) = s.ref_count - 1 := by
  rw [dropHandle_eq_of_ge_two s h]
  rfl

/-- C2: dropping an Rc handle while the observed count exceeds 1 decrements
the count by exactly one and leaves the block allocated, the payload intact
and at least one handle live; dropping while the count is 1 frees the block,
and that happens exactly when the dropped handle is the last live one. -/
theorem rc_drop_frees_exactly_once {α : Type} (v : α) (s : RcSys α)
    (h : RcReach v s) (hl : 1 ≤ s.live) :
    (1 < Rc.strong_count s →
      (Rc.dropHandle s).allocated = true
      ∧ Rc.strong_count (Rc.dropHandle s) = Rc.strong_count s - 1
      ∧ (Rc.dropHandle s).val = s.val
      ∧ (Rc.dropHandle s).live = s.live - 1
      ∧ 1 ≤ (Rc.dropHandle s).live)
    ∧ (Rc.strong_count s = 1 →
      (Rc.dropHandle s).allocated = false
      ∧ (Rc.dropHandle s).live = 0 ∧ s.live = 1)
    ∧ ((Rc.dropHandle s).allocated = false ↔ s.live = 1) := by
  obtain ⟨hv, hiff, hcnt⟩ := rcReach_invariant h
  have ha : s.allocated = true := hiff.mpr hl
  have hc : s.ref_count = s.live := hcnt ha
  match hrc : s.ref_count with
  | 0 => omega
  | 1 =>
      have hlive : s.live = 1 := by omega
      have hd := dropHandle_eq_of_one s hrc
      refine ⟨?_, ?_, ?_⟩
      · intro h1
        simp only [Rc.strong_count, hrc] at h1
        omega
      · intro _
        rw [hd]
        refine ⟨rfl, ?_, hlive⟩
        show s.live - 1 = 0
        omega
      · rw [hd]
        simp [hlive]
  | (k + 2) =>
      have hd := dropHandle_eq_of_ge_two s (by omega)
      refine ⟨?_, ?_, ?_⟩
      · intro _
        rw [hd]
        refine ⟨ha, rfl, rfl, rfl, ?_⟩
        show 1 ≤ s.live - 1
        omega
      · intro h1
        simp only [Rc.strong_count, hrc] at h1
        omega
      · rw [hd]
        show s.allocated = false ↔ s.live = 1
        rw [ha]
        constructor
        · intro hcontra
          exact absurd hcontra (by simp)
        · intro hl1
          omega

/-- Witness for rc_drop_frees_exactly_once: dropping one of the two handles
of a once-cloned Rc::new(5) keeps the block allocated and drops the count
from 2 to 1. -/
theorem rc_drop_frees_exactly_once_witness :
    (Rc.dropHandle (Rc.clone (Rc.new (5 : Nat)))).allocated = true
    ∧ Rc.strong_count (Rc.dropHandle (Rc.clone (Rc.new (5 : Nat))))
        = Rc.strong_count (Rc.clone (Rc.new (5 : Nat))) - 1 := by
  have h := rc_drop_frees_exactly_once 5 (Rc.clone (Rc.new 5))
    (RcReach.cloneStep RcReach.init (by decide)) (by decide)
  have h1 := h.1 (by decide)
  exact ⟨h1.1, h1.2.1⟩

/-- C3: Rc::new(v) makes one block with count 1; every clone increments the
count by exactly one, touches neither payload nor allocation (no allocation
happens) and is total (never fails); after N clones and no drops the count
is N+1, and dropping one handle then brings it back to N. -/
theorem rc_clone_counts {α : Type} (v : α) (N : Nat) :
    Rc.strong_count (Rc.new v) = 1
    ∧ (∀ s : RcSys α,
        Rc.strong_count (Rc.clone s) = Rc.strong_count s + 1
        ∧ (Rc.clone s).val = s.val
        ∧ (Rc.clone s).allocated = s.allocated
        ∧ (Rc.clone s).live = s.live + 1)
    ∧ Rc.strong_count (Rc.cloneN N (Rc.new v)) = N + 1
    ∧ (1 ≤ N → Rc.strong_count (Rc.dropHandle (Rc.cloneN N (Rc.new v))) = N) := by
  have hN : Rc.strong_count (Rc.cloneN N (Rc.new v)) = N + 1 := by
    have := cloneN_strong_count N (Rc.new v)
    simp only [Rc.strong_count, Rc.new] at *
    omega
  refine ⟨rfl, fun s => ⟨rfl, rfl, rfl, rfl⟩, hN, ?_⟩
  intro h1
  have := dropHandle_strong_count (Rc.cloneN N (Rc.new v)) (by
    simp only [Rc.strong_count] at hN
    omega)
  simp only [Rc.strong_count] at *
  omega

/-- Witness for rc_clone_counts at v = 7, N = 1. -/
theorem rc_clone_counts_witness :
    Rc.strong_count (Rc.dropHandle (Rc.cloneN 1 (Rc.new (7 : Nat)))) = 1 :=
  (rc_clone_counts 7 1).2.2.2 (by decide)

/-- C7: while at least one handle is live, dereferencing yields the payload
Rc::new was given, whatever interleaving of clones and drops happened. -/
theorem rc_deref_eq_new {α : Type} (v : α) (s : RcSys α)
    (h : RcReach v s) (hl : 1 ≤ s.live) :
    Rc.deref s = some v := by
  obtain ⟨hv, hiff, _⟩ := rcReach_invariant h
  have ha : s.allocated = true := hiff.mpr hl
  simp [Rc.deref, ha, hv]

/-- Witness for rc_deref_eq_new: after new(5), one clone and one drop, the
surviving handle still dereferences to 5. -/
theorem rc_deref_eq_new_witness :
    Rc.deref (Rc.dropHandle (Rc.clone (Rc.new (5 : Nat)))) = some 5 :=
  rc_deref_eq_new 5 (Rc.dropHandle (Rc.clone (Rc.new 5)))
    (RcReach.dropStep (RcReach.cloneStep RcReach.init (by decide)) (by decide))
    (by decide)

/-- C10: borrow and borrow_mut only touch the borrow-state field, clone only
touches the reference count (and the set of live handles), and strong_count
just reads the count: none of them changes the wrapped payload. -/
theorem ops_preserve_payload {α : Type} (c : RefCell α) (s : RcSys α) :
    ((RefCell.borrow c).2).val = c.val
    ∧ ((RefCell.borrow_mut c).2).val = c.val
    ∧ (Rc.clone s).val = s.val
    ∧ (Rc.clone s).allocated = s.allocated
    ∧ Rc.strong_count s = s.ref_count := by
  refine ⟨?_, ?_, rfl, rfl, rfl⟩
  · cases h : c.state <;> simp [RefCell.borrow, h]
  · cases h : c.state <;> simp [RefCell.borrow_mut, h]

/-- C4: borrow() on state None issues a handle and moves to Shared(1); on
Shared(n) it issues a handle and moves to Shared(n+1); on Exclusive it is
refused (no handle) and the whole cell, payload and state, is unchanged. -/
theorem borrow_transition_table {α : Type} (v : α) (n : Nat) :
    RefCell.borrow { val := v, state := RefState.none }
      = (true, { val := v, state := RefState.shared 1 })
    ∧ RefCell.borrow { val := v, state := RefState.shared n }
      = (true, { val := v, state := RefState.shared (n + 1) })
    ∧ RefCell.borrow { val := v, state := RefState.exclusive }
      = (false, { val := v, state := RefState.exclusive }) :=
  ⟨rfl, rfl, rfl⟩

/-- C5: borrow_mut() issues a WriteHandle and moves to Exclusive exactly
when the state is None; on Shared(n) or Exclusive it returns None (a
refusal value, not an abort) and leaves payload and state unchanged. -/
theorem borrow_mut_iff_unborrowed {α : Type} (v : α) (n : Nat) (c : RefCell α) :
    RefCell.borrow_mut { val := v, state := RefState.none }
      = (true, { val := v, state := RefState.exclusive })
    ∧ ((RefCell.borrow_mut c).1 = true ↔ c.state = RefState.none)
    ∧ RefCell.borrow_mut { val := v, state := RefState.shared n }
      = (false, { val := v, state := RefState.shared n })
    ∧ RefCell.borrow_mut { val := v, state := RefState.exclusive }
      = (false, { val := v, state := RefState.exclusive }) := by
  refine ⟨rfl, ?_, rfl, rfl⟩
  cases h : c.state <;> simp [RefCell.borrow_mut, h]

end UnsafeCells
